import Mathlib

/-! read_pftable.c : a verification development

A shallow embedding of `src/experiments/read_pftable.c` (and of the constants that
`src/experiments/dump_constants.c` prints).  The C `main` talks to its environment
(`getuid`, `open`, `ioctl`, the heap, the stack); the environment is an explicit
`World` value, and a run of `main` is a pure function from the world to the exit
status together with the ordered trace of the calls the program made.

Conventions of the model
* the constants and the structure sizes that come from the system headers
  (`net/pfvar.h`, `netinet/in.h`, `limits.h`) are fields of `Platform`;
* `char` arrays are lists of `Char`, the byte 0 being `Char.ofNat 0`;
* the 16 bytes of the address union `pfra_u` are a list of numbers, byte `k` being
  `(u.getD k 0) % 256`;
* `malloc` is taken to succeed, and a read of `addr[i]` with `i >= SIZE` yields what
  the world holds behind the buffer (`World.heap`): C leaves it undefined;
* when `inet_ntop` fails it leaves the text buffer untouched, so the following
  `printf` shows what the uninitialised stack array held (`World.stale`);
* `ioctl` on a negative descriptor, which is never an open one, fails with `EBADF`
  before the kernel looks at the request.
-/

namespace ReadPftable

/-! ## Platform constants (system headers) -/

/-- Constants of the target platform, as `dump_constants.c` prints them, and the
size of one address record. -/
structure Platform where
  PATH_MAX : Nat
  IFNAMSIZ : Nat
  INET_ADDRSTRLEN : Nat
  PF_TABLE_NAME_SIZE : Nat
  DIOCRGETADDRS : Nat
  AF_INET : Nat
  AF_INET6 : Nat
  sizeof_pfr_addr : Nat

/-- Values of OpenBSD/amd64, the platform the experiment was written for. -/
def openbsd : Platform where
  PATH_MAX := 1024
  IFNAMSIZ := 16
  INET_ADDRSTRLEN := 16
  PF_TABLE_NAME_SIZE := 32
  DIOCRGETADDRS := 3293594694
  AF_INET := 2
  AF_INET6 := 24
  sizeof_pfr_addr := 52

/-- Line 18: `#define SIZE 4`. -/
def SIZE : Nat := 4

/-! ## Data model (`net/pfvar.h`) -/

/-- The fields of `struct pfr_table`. -/
structure pfr_table where
  pfrt_anchor : List Char
  pfrt_name : List Char
  pfrt_flags : Nat
  pfrt_fback : Nat
  deriving DecidableEq, Repr

/-- The fields of `struct pfr_addr` the program reads: the address union and the
family tag. -/
structure pfr_addr where
  pfra_u : List Nat
  pfra_af : Nat
  deriving DecidableEq, Repr

/-- The fields of `struct pfioc_table`; `pfrio_buffer` is the content of the memory
the pointer designates, byte by byte. -/
structure pfioc_table where
  pfrio_table : pfr_table
  pfrio_buffer : List Nat
  pfrio_esize : Int
  pfrio_size : Int
  pfrio_size2 : Int
  pfrio_nadd : Int
  pfrio_ndel : Int
  pfrio_nchange : Int
  pfrio_flags : Int
  pfrio_ticket : Nat
  deriving DecidableEq, Repr

/-- The zero byte of a `char` array. -/
def NUL : Char := Char.ofNat 0

/-- Conversion of a value to a 32-bit `int`. -/
def toInt32 (n : Int) : Int := (n + 2147483648) % 4294967296 - 2147483648

/-- Conversion of a value to `size_t` (64 bits). -/
def toSizeT (n : Int) : Nat := (n % 18446744073709551616).toNat

/-- Conversion of an `int` to the `unsigned int` that `%u` prints. -/
def toUInt32 (n : Int) : Nat := (n % 4294967296).toNat

/-- The characters of a C string: what precedes the first zero byte. -/
def cstr (s : List Char) : List Char := s.takeWhile (fun c => c != NUL)

/-- The call `strlen(s)`. -/
def strlen (s : List Char) : Nat := (cstr s).length

/-- The call `strlcpy(dst, src, dsize)`: copies at most `dsize - 1` characters of the
C string `src` to the front of `dst` and terminates them with a zero byte; with
`dsize = 0` nothing is written.  Returns the new content of `dst` and `strlen(src)`. -/
def strlcpy (dst src : List Char) (dsize : Nat) : List Char × Nat :=
  if dsize = 0 then (dst, strlen src)
  else
    let n := min (strlen src) (dsize - 1)
    ((cstr src).take n ++ NUL :: dst.drop (n + 1), strlen src)

/-- The call `bzero(&tbl, sizeof(tbl))` on a `struct pfr_table`. -/
def bzero_pfr_table (p : Platform) : pfr_table where
  pfrt_anchor := List.replicate p.PATH_MAX NUL
  pfrt_name := List.replicate p.PF_TABLE_NAME_SIZE NUL
  pfrt_flags := 0
  pfrt_fback := 0

/-- The call `bzero(&io, sizeof(io))` on a `struct pfioc_table` (the null pointer
designates no memory). -/
def bzero_pfioc_table (p : Platform) : pfioc_table where
  pfrio_table := bzero_pfr_table p
  pfrio_buffer := []
  pfrio_esize := 0
  pfrio_size := 0
  pfrio_size2 := 0
  pfrio_nadd := 0
  pfrio_ndel := 0
  pfrio_nchange := 0
  pfrio_flags := 0
  pfrio_ticket := 0

/-- A record of the buffer after `bzero(addr, msize)`. -/
def zero_pfr_addr : pfr_addr where
  pfra_u := []
  pfra_af := 0

/-! ## `inet_ntop` (libc, `arpa/inet.h`) -/

/-- Byte `k` of the address union. -/
def byteAt (u : List Nat) (k : Nat) : Nat := u.getD k 0 % 256

/-- The digit character of a value below 16. -/
def digitChar (d : Nat) : Char :=
  if d < 10 then Char.ofNat (48 + d) else Char.ofNat (87 + d)

/-- The text `%u` gives for a byte. -/
def fmtU8 (b : Nat) : List Char :=
  if b < 10 then [digitChar b]
  else if b < 100 then [digitChar (b / 10), digitChar (b % 10)]
  else [digitChar (b / 100), digitChar (b / 10 % 10), digitChar (b % 10)]

/-- The text `%x` gives for a 16-bit word. -/
def fmtX16 (w : Nat) : List Char :=
  if w < 16 then [digitChar w]
  else if w < 256 then [digitChar (w / 16), digitChar (w % 16)]
  else if w < 4096 then [digitChar (w / 256), digitChar (w / 16 % 16), digitChar (w % 16)]
  else [digitChar (w / 4096), digitChar (w / 256 % 16), digitChar (w / 16 % 16),
        digitChar (w % 16)]

/-- The dotted-decimal text of the four bytes starting at `off`. -/
def text4 (u : List Nat) (off : Nat) : List Char :=
  fmtU8 (byteAt u off) ++ '.' :: fmtU8 (byteAt u (off + 1)) ++ '.' ::
    fmtU8 (byteAt u (off + 2)) ++ '.' :: fmtU8 (byteAt u (off + 3))

/-- The eight 16-bit words of an IPv6 address, in network byte order. -/
def words6 (u : List Nat) : List Nat :=
  (List.range 8).map (fun i => byteAt u (2 * i) * 256 + byteAt u (2 * i + 1))

/-- One step of the search for the longest run of zero words: `best` and `cur` are
`(base, len)` pairs. -/
def runStep (st : Option (Nat × Nat) × Option (Nat × Nat)) (iw : Nat × Nat) :
    Option (Nat × Nat) × Option (Nat × Nat) :=
  let best := st.1
  let cur := st.2
  if iw.2 = 0 then
    match cur with
    | none => (best, some (iw.1, 1))
    | some c => (best, some (c.1, c.2 + 1))
  else
    match cur with
    | none => (best, none)
    | some c =>
      match best with
      | none => (some c, none)
      | some b => (if c.2 > b.2 then some c else some b, none)

/-- The run of zero words that `::` abbreviates: the first longest one, of length at
least 2. -/
def bestRun (ws : List Nat) : Option (Nat × Nat) :=
  let st := (List.range ws.length |>.zip ws).foldl runStep (none, none)
  let best :=
    match st.2 with
    | none => st.1
    | some c =>
      match st.1 with
      | none => some c
      | some b => if c.2 > b.2 then some c else some b
  match best with
  | none => none
  | some b => if b.2 < 2 then none else some b

/-- The formatting loop of the IPv6 text, from word `i` on (`fuel` words left). -/
def fmt6 (u : List Nat) (ws : List Nat) (best : Option (Nat × Nat)) :
    Nat → Nat → List Char
  | 0, _ => []
  | fuel + 1, i =>
    let inBest := match best with
      | none => false
      | some b => decide (b.1 ≤ i ∧ i < b.1 + b.2)
    if inBest then
      (if (best.map Prod.fst) = some i then [':'] else []) ++ fmt6 u ws best fuel (i + 1)
    else
      let sep := if i ≠ 0 then [':'] else []
      let encapsulated := match best with
        | none => false
        | some b => decide (i = 6 ∧ b.1 = 0 ∧ (b.2 = 6 ∨ (b.2 = 5 ∧ ws.getD 5 0 = 65535)))
      if encapsulated then sep ++ text4 u 12
      else sep ++ fmtX16 (ws.getD i 0) ++ fmt6 u ws best fuel (i + 1)

/-- The text of an IPv6 address (the 16 bytes of `u`). -/
def text6 (u : List Nat) : List Char :=
  let ws := words6 u
  let best := bestRun ws
  let body := fmt6 u ws best 8 0
  let trailing := match best with
    | none => false
    | some b => decide (b.1 + b.2 = 8)
  if trailing then body ++ [':'] else body

/-- The call `inet_ntop(af, src, dst, size)`: `some text` when the text and its
terminating zero byte fit in `size` bytes (the text is then in `dst`), `none` when
the call returns `NULL` (`ENOSPC` for a text that does not fit, `EAFNOSUPPORT` for a
family that is neither `AF_INET` nor `AF_INET6`) and leaves `dst` alone. -/
def inet_ntop (p : Platform) (af : Nat) (src : List Nat) (size : Nat) : Option String :=
  if af = p.AF_INET then
    if (text4 src 0).length + 1 > size then none else some (String.mk (text4 src 0))
  else if af = p.AF_INET6 then
    if (text6 src).length + 1 > size then none else some (String.mk (text6 src))
  else none

/-! ## The environment and the trace of a run -/

/-- What the kernel answers to one `ioctl`: the value the call returns, the value it
leaves in `io.pfrio_size`, and the records the buffer holds afterwards (a record the
kernel did not write is still zero). -/
structure IoctlResult where
  ret : Int
  pfrio_size : Int
  records : List pfr_addr

/-- The environment of one run. -/
structure World where
  /-- The value of `getuid()`. -/
  uid : Nat
  /-- The value of `open("/dev/pf", O_RDWR)`. -/
  openResult : Int
  /-- The kernel: what it answers to a request on an open descriptor, given the
  descriptor, the request code and the envelope. -/
  kernel : Int → Nat → pfioc_table → IoctlResult
  /-- The memory behind the allocated buffer, seen as record `i` for `i >= SIZE`. -/
  heap : Nat → pfr_addr
  /-- The text the uninitialised array `buffer` holds in iteration `i`. -/
  stale : Nat → String

/-- The calls a run makes, in order. -/
inductive Event where
  | printf (text : String)
  | openDev (path : String)
  | malloc (bytes : Nat)
  | ioctl (dev : Int) (request : Nat) (io : pfioc_table)
  | load (index : Nat)
  | free
  | close (dev : Int)
  deriving DecidableEq, Repr

/-- The result of a run: the value `main` returns and the calls it made. -/
structure Outcome where
  status : Int
  trace : List Event
  deriving DecidableEq, Repr

/-- The lines written to the standard output. -/
def stdout (t : List Event) : List String :=
  t.filterMap (fun e => match e with
    | Event.printf s => some s
    | _ => none)

/-- The envelopes handed to `ioctl`. -/
def ioctlRequests (t : List Event) : List pfioc_table :=
  t.filterMap (fun e => match e with
    | Event.ioctl _ _ io => some io
    | _ => none)

/-- The indices of the records read from `addr`. -/
def loads (t : List Event) : List Nat :=
  t.filterMap (fun e => match e with
    | Event.load i => some i
    | _ => none)

/-- The descriptors passed to `close`. -/
def closes (t : List Event) : List Int :=
  t.filterMap (fun e => match e with
    | Event.close d => some d
    | _ => none)

/-- The paths passed to `open`. -/
def opens (t : List Event) : List String :=
  t.filterMap (fun e => match e with
    | Event.openDev s => some s
    | _ => none)

/-- The call `ioctl(dev, request, &io)`.  A negative descriptor is never an open one
(`open` returns -1 when it fails): the call then fails with `EBADF`, returns -1 and
leaves `io` and the buffer as they were.  On any other descriptor the kernel
answers. -/
def ioctl (w : World) (dev : Int) (request : Nat) (io : pfioc_table) : IoctlResult :=
  if dev < 0 then ⟨-1, io.pfrio_size, []⟩ else w.kernel dev request io

/-! ## `main` of read_pftable.c -/

/-- Lines 29-31: the zeroed `tbl` with `name` copied into `pfrt_name`. -/
def makeTable (p : Platform) (name : List Char) : pfr_table :=
  let tbl := bzero_pfr_table p
  { tbl with pfrt_name := (strlcpy tbl.pfrt_name name p.PF_TABLE_NAME_SIZE).1 }

/-- Line 34: `int msize = sizeof(struct pfr_addr) * SIZE`. -/
def msize (p : Platform) : Int := toInt32 (p.sizeof_pfr_addr * SIZE)

/-- Lines 37-38: the content of the buffer after `malloc(msize)` and
`bzero(addr, msize)`. -/
def zeroedBuffer (p : Platform) : List Nat := List.replicate (toSizeT (msize p)) 0

/-- Lines 40-45: the envelope `io` as it is handed to `ioctl`. -/
def makeRequest (p : Platform) (name : List Char) : pfioc_table :=
  let io := bzero_pfioc_table p
  { io with
    pfrio_table := makeTable p name
    pfrio_buffer := zeroedBuffer p
    pfrio_esize := toInt32 p.sizeof_pfr_addr
    pfrio_size := SIZE }

/-- The record `addr[i]` after the `ioctl`: inside the buffer what the kernel left
there, behind it what the heap holds. -/
def addrAt (w : World) (r : IoctlResult) (i : Nat) : pfr_addr :=
  if i < SIZE then r.records.getD i zero_pfr_addr else w.heap i

/-- Line 58-59: the line iteration `i` prints. -/
def addrLine (p : Platform) (w : World) (r : IoctlResult) (i : Nat) : String :=
  match inet_ntop p (addrAt w r i).pfra_af (addrAt w r i).pfra_u p.INET_ADDRSTRLEN with
  | some text => text ++ "\n"
  | none => w.stale i ++ "\n"

/-- Lines 56-59: the body of the loop, for index `i`. -/
def loopBody (p : Platform) (w : World) (r : IoctlResult) (i : Nat) : List Event :=
  [Event.load i, Event.printf (addrLine p w r i)]

/-- Lines 53-61: the guarded loop over the returned count. -/
def printLoop (p : Platform) (w : World) (r : IoctlResult) : List Event :=
  if r.pfrio_size ≥ 1 then
    (List.range r.pfrio_size.toNat).flatMap (loopBody p w r)
  else []

/-- Lines 26-47: the calls from `open` to the line before the `ioctl`. -/
def preamble (p : Platform) (w : World) (name : List Char) : List Event :=
  [ Event.openDev "/dev/pf",
    Event.printf ("Got fd: " ++ toString (toUInt32 w.openResult) ++ "\n"),
    Event.printf ("Table Name: " ++ String.mk (cstr (makeTable p name).pfrt_name) ++ "\n"),
    Event.printf ("Malloc " ++ toString (msize p) ++ " bytes to store " ++ toString SIZE
      ++ " pfr_addr structures (" ++ toString p.sizeof_pfr_addr ++ " each)\n"),
    Event.malloc (toSizeT (msize p)),
    Event.printf ("pfrio_size before ioctl: " ++ toString (makeRequest p name).pfrio_size
      ++ "\n") ]

/-- The function `main` with the table name as a parameter. -/
def mainFor (name : List Char) (p : Platform) (w : World) : Outcome :=
  if w.uid ≠ 0 then
    ⟨1, [Event.printf "Must be root\n"]⟩
  else
    let dev := w.openResult
    let io := makeRequest p name
    let r := ioctl w dev p.DIOCRGETADDRS io
    if r.ret = -1 then
      ⟨-1, preamble p w name ++ [Event.ioctl dev p.DIOCRGETADDRS io]⟩
    else
      ⟨0, preamble p w name ++ [Event.ioctl dev p.DIOCRGETADDRS io]
        ++ [Event.printf ("pfrio_size after ioctl: " ++ toString r.pfrio_size ++ "\n")]
        ++ printLoop p w r
        ++ [Event.free, Event.close dev]⟩

/-- Line 31: the name the program asks for. -/
def tableName : List Char := "my_table".toList

/-- The function `main` of read_pftable.c. -/
def main (p : Platform) (w : World) : Outcome := mainFor tableName p w

/-- The answer of the kernel to the one request `main` makes. -/
def answer (name : List Char) (p : Platform) (w : World) : IoctlResult :=
  ioctl w w.openResult p.DIOCRGETADDRS (makeRequest p name)

/-- The text of the address of a record when the text buffer is large enough for
every address (`INET6_ADDRSTRLEN` = 46 bytes). -/
def fullText (p : Platform) (a : pfr_addr) : Option String :=
  inet_ntop p a.pfra_af a.pfra_u 46

/-! ## Concrete worlds -/

/-- An IPv4 record of OpenBSD. -/
def rec4 (a b c d : Nat) : pfr_addr := ⟨[a, b, c, d], 2⟩

/-- An IPv6 record of OpenBSD, from its eight words. -/
def rec6 (ws : List Nat) : pfr_addr := ⟨ws.flatMap (fun x => [x / 256, x % 256]), 24⟩

/-- A world whose kernel gives the same answer to every request. -/
def mkWorld (uid : Nat) (fd : Int) (r : IoctlResult) : World where
  uid := uid
  openResult := fd
  kernel := fun _ _ _ => r
  heap := fun _ => zero_pfr_addr
  stale := fun _ => "junk"

/-- Not root. -/
def userWorld : World := mkWorld 1000 3 ⟨0, 0, []⟩

/-- Root, a table of two IPv4 addresses. -/
def twoWorld : World := mkWorld 0 3 ⟨0, 2, [rec4 10 0 0 1, rec4 192 168 1 2]⟩

/-- Root, a table of five addresses: the kernel reports the count 5 and, the
capacity being 4, copies nothing. -/
def grownWorld : World := mkWorld 0 3 ⟨0, 5, []⟩

/-- Root, the kernel refuses the request. -/
def refusedWorld : World := mkWorld 0 3 ⟨-1, 4, []⟩

/-- Root, `open` fails; the kernel would answer a request on an open descriptor with
one record. -/
def noDeviceWorld : World := mkWorld 0 (-1) ⟨0, 1, [rec4 10 0 0 1]⟩

/-- Root, one record whose family tag is 0. -/
def unknownFamilyWorld : World := mkWorld 0 3 ⟨0, 1, [⟨[10, 0, 0, 1], 0⟩]⟩

/-- Root, two IPv6 records that differ in their last byte. -/
def ipv6World : World :=
  mkWorld 0 3 ⟨0, 2, [rec6 [0x2001, 0xdb8, 1, 2, 3, 4, 5, 6], rec6 [0x2001, 0xdb8, 1, 2, 3, 4, 5, 7]]⟩

/-! ## Lemmas on traces -/

theorem printLoop_eq (p : Platform) (w : World) (r : IoctlResult) :
    printLoop p w r = (List.range r.pfrio_size.toNat).flatMap (loopBody p w r) := by
  unfold printLoop
  split
  · rfl
  · rename_i h
    have h0 : r.pfrio_size.toNat = 0 := by omega
    simp [h0]

theorem stdout_flatMap_loopBody (p : Platform) (w : World) (r : IoctlResult) (l : List Nat) :
    stdout (l.flatMap (loopBody p w r)) = l.map (addrLine p w r) := by
  induction l with
  | nil => rfl
  | cons i l ih =>
    simp only [List.flatMap_cons, List.map_cons]
    unfold stdout at ih ⊢
    rw [List.filterMap_append, ih]
    rfl

theorem loads_flatMap_loopBody (p : Platform) (w : World) (r : IoctlResult) (l : List Nat) :
    loads (l.flatMap (loopBody p w r)) = l := by
  induction l with
  | nil => rfl
  | cons i l ih =>
    simp only [List.flatMap_cons]
    unfold loads at ih ⊢
    rw [List.filterMap_append, ih]
    rfl

theorem ioctlRequests_flatMap_loopBody (p : Platform) (w : World) (r : IoctlResult)
    (l : List Nat) : ioctlRequests (l.flatMap (loopBody p w r)) = [] := by
  induction l with
  | nil => rfl
  | cons i l ih =>
    simp only [List.flatMap_cons]
    unfold ioctlRequests at ih ⊢
    rw [List.filterMap_append, ih]
    rfl

theorem stdout_printLoop (p : Platform) (w : World) (r : IoctlResult) :
    stdout (printLoop p w r) = (List.range r.pfrio_size.toNat).map (addrLine p w r) := by
  rw [printLoop_eq, stdout_flatMap_loopBody]

theorem loads_printLoop (p : Platform) (w : World) (r : IoctlResult) :
    loads (printLoop p w r) = List.range r.pfrio_size.toNat := by
  rw [printLoop_eq, loads_flatMap_loopBody]

theorem ioctlRequests_printLoop (p : Platform) (w : World) (r : IoctlResult) :
    ioctlRequests (printLoop p w r) = [] := by
  rw [printLoop_eq, ioctlRequests_flatMap_loopBody]

/-- Root runs issue the one request `makeRequest`, whatever the kernel answers. -/
theorem ioctlRequests_mainFor (name : List Char) (p : Platform) (w : World) (h : w.uid = 0) :
    ioctlRequests (mainFor name p w).trace = [makeRequest p name] := by
  unfold mainFor
  rw [if_neg (by simp [h])]
  dsimp only
  split
  · rfl
  · show ioctlRequests (_ ++ _ ++ _ ++ _ ++ _) = _
    unfold ioctlRequests
    simp only [List.filterMap_append]
    have h3 := ioctlRequests_printLoop p w
        (ioctl w w.openResult p.DIOCRGETADDRS (makeRequest p name))
    unfold ioctlRequests at h3
    rw [h3]
    rfl

/-- A root run whose request succeeds: the whole trace. -/
theorem mainFor_ok (name : List Char) (p : Platform) (w : World) (h0 : w.uid = 0)
    (hret : (answer name p w).ret ≠ -1) :
    mainFor name p w =
      ⟨0, preamble p w name ++ [Event.ioctl w.openResult p.DIOCRGETADDRS (makeRequest p name)]
        ++ [Event.printf ("pfrio_size after ioctl: "
              ++ toString (answer name p w).pfrio_size ++ "\n")]
        ++ printLoop p w (answer name p w)
        ++ [Event.free, Event.close w.openResult]⟩ := by
  unfold answer at hret
  unfold mainFor
  rw [if_neg (by simp [h0])]
  dsimp only
  rw [if_neg hret]
  rfl

/-- A root run whose request fails: the whole trace. -/
theorem mainFor_refused (name : List Char) (p : Platform) (w : World) (h0 : w.uid = 0)
    (hret : (answer name p w).ret = -1) :
    mainFor name p w =
      ⟨-1, preamble p w name ++
        [Event.ioctl w.openResult p.DIOCRGETADDRS (makeRequest p name)]⟩ := by
  unfold answer at hret
  unfold mainFor
  rw [if_neg (by simp [h0])]
  dsimp only
  rw [if_pos hret]

theorem fmtU8_length_le (b : Nat) : (fmtU8 b).length ≤ 3 := by
  unfold fmtU8
  split
  · simp
  · split <;> simp

theorem text4_length_le (u : List Nat) (off : Nat) : (text4 u off).length ≤ 15 := by
  have h0 := fmtU8_length_le (byteAt u off)
  have h1 := fmtU8_length_le (byteAt u (off + 1))
  have h2 := fmtU8_length_le (byteAt u (off + 2))
  have h3 := fmtU8_length_le (byteAt u (off + 3))
  unfold text4
  simp only [List.length_append, List.length_cons]
  omega

/-- An IPv4 record always fits in a text buffer of 16 bytes. -/
theorem inet_ntop_ipv4 (p : Platform) (u : List Nat) (size : Nat) (hs : 16 ≤ size) :
    inet_ntop p p.AF_INET u size = some (String.mk (text4 u 0)) := by
  have h := text4_length_le u 0
  unfold inet_ntop
  rw [if_pos rfl, if_neg (by omega)]

/-- Claim C7: when the caller is not root (`getuid() != 0`), `main` returns 1 after
printing only `Must be root`; it opens nothing, issues no request, reads no record and
closes nothing. -/
theorem C7_not_root_fails (p : Platform) (w : World) (h : w.uid ≠ 0) :
    (main p w).status = 1 ∧
    (main p w).trace = [Event.printf "Must be root\n"] ∧
    opens (main p w).trace = [] ∧
    ioctlRequests (main p w).trace = [] ∧
    loads (main p w).trace = [] := by
  have hm : main p w = ⟨1, [Event.printf "Must be root\n"]⟩ := by
    unfold main mainFor
    rw [if_pos h]
  rw [hm]
  exact ⟨rfl, rfl, rfl, rfl, rfl⟩

/-- Witness of C7 in the world of an ordinary user (uid 1000). -/
theorem C7_not_root_fails_witness :
    userWorld.uid ≠ 0 ∧
    (main openbsd userWorld).status = 1 ∧
    (main openbsd userWorld).trace = [Event.printf "Must be root\n"] ∧
    opens (main openbsd userWorld).trace = [] ∧
    ioctlRequests (main openbsd userWorld).trace = [] ∧
    loads (main openbsd userWorld).trace = [] :=
  ⟨by decide, C7_not_root_fails openbsd userWorld (by decide)⟩

/-- Claim C1, refuted: in the world where the request succeeds and reports the count
5, above the capacity 4, no further request follows the first one, and `main` ends
the read with status 0. -/
theorem C1_no_retry_counterexample :
    grownWorld.uid = 0 ∧
    (answer tableName openbsd grownWorld).ret ≠ -1 ∧
    (answer tableName openbsd grownWorld).pfrio_size > SIZE ∧
    (main openbsd grownWorld).status = 0 ∧
    ¬ ∃ io ∈ (ioctlRequests (main openbsd grownWorld).trace).tail,
        io.pfrio_size ≥ (answer tableName openbsd grownWorld).pfrio_size := by
  decide

/-- Claim C1, amended: every run of a root caller issues exactly one get request, of
capacity `SIZE` = 4, whatever count the answer reports; there is no further
request. -/
theorem C1_single_request (p : Platform) (w : World) (h : w.uid = 0) :
    ioctlRequests (main p w).trace = [makeRequest p tableName] ∧
    (makeRequest p tableName).pfrio_size = 4 ∧
    (ioctlRequests (main p w).trace).tail = [] := by
  have h1 := ioctlRequests_mainFor tableName p w h
  refine ⟨h1, rfl, ?_⟩
  show (ioctlRequests (mainFor tableName p w).trace).tail = []
  rw [h1]
  rfl

/-- Witness of the amended C1 in the world where the table has grown to 5. -/
theorem C1_single_request_witness :
    grownWorld.uid = 0 ∧
    ioctlRequests (main openbsd grownWorld).trace = [makeRequest openbsd tableName] ∧
    (makeRequest openbsd tableName).pfrio_size = 4 ∧
    (ioctlRequests (main openbsd grownWorld).trace).tail = [] :=
  ⟨by decide, C1_single_request openbsd grownWorld (by decide)⟩

/-- Claim C2, evaluated at the failing input: the request succeeds and reports the
count 5 for the 4-record buffer; `main` reads the records 0 to 4, the last one at
index 4 outside the buffer, prints five lines and returns 0. -/
theorem C2_reads_outside_buffer :
    (answer tableName openbsd grownWorld).ret ≠ -1 ∧
    (answer tableName openbsd grownWorld).pfrio_size = 5 ∧
    (main openbsd grownWorld).status = 0 ∧
    loads (main openbsd grownWorld).trace = [0, 1, 2, 3, 4] ∧
    (¬ ∀ i ∈ loads (main openbsd grownWorld).trace, i < SIZE) ∧
    ((stdout (main openbsd grownWorld).trace).drop 5).length = 5 := by
  decide

/-- Claim C4, evaluated at the failing input: one fetched record carries the family
tag 0, neither `AF_INET` nor `AF_INET6`; `inet_ntop` refuses it, and `main` still
prints a line for the record (what the text buffer held) and returns 0. -/
theorem C4_unknown_family_accepted :
    (answer tableName openbsd unknownFamilyWorld).ret ≠ -1 ∧
    (addrAt unknownFamilyWorld (answer tableName openbsd unknownFamilyWorld) 0).pfra_af
      ≠ openbsd.AF_INET ∧
    (addrAt unknownFamilyWorld (answer tableName openbsd unknownFamilyWorld) 0).pfra_af
      ≠ openbsd.AF_INET6 ∧
    inet_ntop openbsd 0 [10, 0, 0, 1] openbsd.INET_ADDRSTRLEN = none ∧
    (main openbsd unknownFamilyWorld).status = 0 ∧
    (stdout (main openbsd unknownFamilyWorld).trace).drop 5 = ["junk\n"] := by
  decide

/-- Claim C5, evaluated at the failing input: two IPv6 records,
2001:db8:1:2:3:4:5:6 and 2001:db8:1:2:3:4:5:7; their texts have 20 characters and do
not fit in the `INET_ADDRSTRLEN` = 16 bytes of the text buffer, so `inet_ntop` fails
for both, and `main` prints the same stale line twice and returns 0. -/
theorem C5_ipv6_text_does_not_fit :
    fullText openbsd (rec6 [0x2001, 0xdb8, 1, 2, 3, 4, 5, 6]) = some "2001:db8:1:2:3:4:5:6" ∧
    fullText openbsd (rec6 [0x2001, 0xdb8, 1, 2, 3, 4, 5, 7]) = some "2001:db8:1:2:3:4:5:7" ∧
    inet_ntop openbsd openbsd.AF_INET6 (rec6 [0x2001, 0xdb8, 1, 2, 3, 4, 5, 6]).pfra_u
      openbsd.INET_ADDRSTRLEN = none ∧
    inet_ntop openbsd openbsd.AF_INET6 (rec6 [0x2001, 0xdb8, 1, 2, 3, 4, 5, 7]).pfra_u
      openbsd.INET_ADDRSTRLEN = none ∧
    (main openbsd ipv6World).status = 0 ∧
    (stdout (main openbsd ipv6World).trace).drop 5 = ["junk\n", "junk\n"] := by
  decide

/-- Claim C9, evaluated at the failing input: root, `open` gives the descriptor 3 and
the get request fails; `main` returns -1 with the descriptor still open (no `close`,
no `free`), while the success path closes it once, as the last call. -/
theorem C9_error_path_leaks_handle :
    (main openbsd refusedWorld).status = -1 ∧
    opens (main openbsd refusedWorld).trace = ["/dev/pf"] ∧
    closes (main openbsd refusedWorld).trace = [] ∧
    Event.free ∉ (main openbsd refusedWorld).trace ∧
    (main openbsd twoWorld).status = 0 ∧
    closes (main openbsd twoWorld).trace = [3] ∧
    (main openbsd twoWorld).trace.getLast? = some (Event.close 3) := by
  decide

/-- Claim C8: when a root caller's `open` of `/dev/pf` fails (returns -1), `main`
returns the non-zero status -1 and prints no address, whatever the kernel would answer
to a request: `open` is called once, the one `ioctl` is handed the descriptor -1 and
fails, no record is read and nothing is printed after the line
`pfrio_size before ioctl`. -/
theorem C8_open_fails (p : Platform) (w : World) (h0 : w.uid = 0)
    (ho : w.openResult = -1) :
    (main p w).status = -1 ∧
    (main p w).status ≠ 0 ∧
    (main p w).trace =
      preamble p w tableName ++ [Event.ioctl (-1) p.DIOCRGETADDRS (makeRequest p tableName)] ∧
    opens (main p w).trace = ["/dev/pf"] ∧
    loads (main p w).trace = [] ∧
    (stdout (main p w).trace).drop 4 = [] := by
  have hr : (answer tableName p w).ret = -1 := by
    unfold answer ioctl
    rw [ho, if_pos (by decide)]
  have hm := mainFor_refused tableName p w h0 hr
  rw [ho] at hm
  unfold main
  rw [hm]
  refine ⟨rfl, ?_, rfl, rfl, rfl, rfl⟩
  show (-1 : Int) ≠ 0
  decide

/-- Witness of C8 in a world where `open` fails and the kernel would answer a request
on an open descriptor with one record. -/
theorem C8_open_fails_witness :
    noDeviceWorld.uid = 0 ∧ noDeviceWorld.openResult = -1 ∧
    (noDeviceWorld.kernel 3 openbsd.DIOCRGETADDRS (makeRequest openbsd tableName)).ret = 0 ∧
    (main openbsd noDeviceWorld).status = -1 ∧
    (main openbsd noDeviceWorld).status ≠ 0 ∧
    (main openbsd noDeviceWorld).trace =
      preamble openbsd noDeviceWorld tableName ++
        [Event.ioctl (-1) openbsd.DIOCRGETADDRS (makeRequest openbsd tableName)] ∧
    opens (main openbsd noDeviceWorld).trace = ["/dev/pf"] ∧
    loads (main openbsd noDeviceWorld).trace = [] ∧
    (stdout (main openbsd noDeviceWorld).trace).drop 4 = [] :=
  ⟨by decide, by decide, by decide,
   C8_open_fails openbsd noDeviceWorld (by decide) (by decide)⟩

/-- Claim C3, evaluated at the failing input: the request succeeds with the count 2,
within the capacity 4, and record 0 is the IPv6 address 2001:db8:1:2:3:4:5:6; `main`
returns 0, and the line it printed for record 0 is not the text of that address but
what the text buffer held. -/
theorem C3_line_is_not_the_decoding :
    (answer tableName openbsd ipv6World).ret ≠ -1 ∧
    0 ≤ (answer tableName openbsd ipv6World).pfrio_size ∧
    (answer tableName openbsd ipv6World).pfrio_size ≤ SIZE ∧
    fullText openbsd (addrAt ipv6World (answer tableName openbsd ipv6World) 0)
      = some "2001:db8:1:2:3:4:5:6" ∧
    (main openbsd ipv6World).status = 0 ∧
    ((stdout (main openbsd ipv6World).trace).drop 5)[0]? = some "junk\n" ∧
    ((stdout (main openbsd ipv6World).trace).drop 5)[0]? ≠ some "2001:db8:1:2:3:4:5:6\n" := by
  decide

/-- A successful request with a count `n`, `0 <= n <= 4`: `main` returns 0 and prints,
after the line `pfrio_size after ioctl: n`, exactly `n` address lines, one per record,
in buffer order; it reads the records 0 to `n - 1` and no other; line `i` is the text
of record `i` whenever `inet_ntop` decodes that record into the text buffer, which it
does for every IPv4 record; with `n = 0` no address line is printed. -/
theorem success_within_capacity (p : Platform) (w : World) (h0 : w.uid = 0)
    (hret : (answer tableName p w).ret ≠ -1)
    (hn0 : 0 ≤ (answer tableName p w).pfrio_size)
    (hn : (answer tableName p w).pfrio_size ≤ SIZE) :
    (main p w).status = 0 ∧
    stdout (main p w).trace =
      stdout (preamble p w tableName)
        ++ ["pfrio_size after ioctl: " ++ toString (answer tableName p w).pfrio_size ++ "\n"]
        ++ (List.range (answer tableName p w).pfrio_size.toNat).map
            (addrLine p w (answer tableName p w)) ∧
    (((List.range (answer tableName p w).pfrio_size.toNat).map
        (addrLine p w (answer tableName p w))).length : Int)
      = (answer tableName p w).pfrio_size ∧
    loads (main p w).trace = List.range (answer tableName p w).pfrio_size.toNat ∧
    (∀ i ∈ loads (main p w).trace, (i : Int) < (answer tableName p w).pfrio_size ∧ i < SIZE) ∧
    (∀ (i : Nat) (text : String), (i : Int) < (answer tableName p w).pfrio_size →
      inet_ntop p ((answer tableName p w).records.getD i zero_pfr_addr).pfra_af
        ((answer tableName p w).records.getD i zero_pfr_addr).pfra_u p.INET_ADDRSTRLEN
        = some text →
      ((List.range (answer tableName p w).pfrio_size.toNat).map
        (addrLine p w (answer tableName p w)))[i]? = some (text ++ "\n")) ∧
    (16 ≤ p.INET_ADDRSTRLEN → ∀ (i : Nat), (i : Int) < (answer tableName p w).pfrio_size →
      ((answer tableName p w).records.getD i zero_pfr_addr).pfra_af = p.AF_INET →
      ((List.range (answer tableName p w).pfrio_size.toNat).map
        (addrLine p w (answer tableName p w)))[i]?
        = some (String.mk (text4 ((answer tableName p w).records.getD i zero_pfr_addr).pfra_u 0)
            ++ "\n")) ∧
    ((answer tableName p w).pfrio_size = 0 →
      stdout (main p w).trace = stdout (preamble p w tableName) ++ ["pfrio_size after ioctl: 0\n"])
    := by
  have hm := mainFor_ok tableName p w h0 hret
  have hSIZE : SIZE = 4 := rfl
  have hout : stdout (main p w).trace =
      stdout (preamble p w tableName)
        ++ ["pfrio_size after ioctl: " ++ toString (answer tableName p w).pfrio_size ++ "\n"]
        ++ (List.range (answer tableName p w).pfrio_size.toNat).map
            (addrLine p w (answer tableName p w)) := by
    unfold main
    rw [hm]
    show stdout (_ ++ _ ++ _ ++ _ ++ _) = _
    have h3 := stdout_printLoop p w (answer tableName p w)
    unfold stdout at h3 ⊢
    simp only [List.filterMap_append]
    rw [h3]
    simp
  have hloads : loads (main p w).trace = List.range (answer tableName p w).pfrio_size.toNat := by
    unfold main
    rw [hm]
    show loads (_ ++ _ ++ _ ++ _ ++ _) = _
    have h3 := loads_printLoop p w (answer tableName p w)
    unfold loads at h3 ⊢
    simp only [List.filterMap_append]
    rw [h3]
    simp [preamble]
  have hline : ∀ (i : Nat) (text : String), (i : Int) < (answer tableName p w).pfrio_size →
      inet_ntop p ((answer tableName p w).records.getD i zero_pfr_addr).pfra_af
        ((answer tableName p w).records.getD i zero_pfr_addr).pfra_u p.INET_ADDRSTRLEN
        = some text →
      ((List.range (answer tableName p w).pfrio_size.toNat).map
        (addrLine p w (answer tableName p w)))[i]? = some (text ++ "\n") := by
    intro i text hi ht
    have hi2 : i < (answer tableName p w).pfrio_size.toNat := by omega
    have hi4 : i < SIZE := by omega
    rw [List.getElem?_map, List.getElem?_range hi2]
    show some (addrLine p w (answer tableName p w) i) = _
    unfold addrLine addrAt
    rw [if_pos hi4, ht]
  refine ⟨?_, hout, ?_, hloads, ?_, hline, ?_, ?_⟩
  · unfold main
    rw [hm]
  · rw [List.length_map, List.length_range]
    omega
  · intro i hi
    rw [hloads, List.mem_range] at hi
    omega
  · intro h16 i hi haf
    apply hline i _ hi
    rw [haf]
    exact inet_ntop_ipv4 p _ _ h16
  · intro hz
    rw [hout, hz]
    rfl

/-- The run on a table of two IPv4 addresses. -/
theorem success_within_capacity_twoWorld :
    twoWorld.uid = 0 ∧
    (answer tableName openbsd twoWorld).ret ≠ -1 ∧
    (answer tableName openbsd twoWorld).pfrio_size = 2 ∧
    (main openbsd twoWorld).status = 0 ∧
    loads (main openbsd twoWorld).trace = List.range (2 : Int).toNat ∧
    (stdout (main openbsd twoWorld).trace).drop 5 = ["10.0.0.1\n", "192.168.1.2\n"] :=
  ⟨by decide, by decide, by decide,
   (success_within_capacity openbsd twoWorld (by decide) (by decide) (by decide)
      (by decide)).1,
   (success_within_capacity openbsd twoWorld (by decide) (by decide) (by decide)
      (by decide)).2.2.2.1,
   by decide⟩

/-- Claim C10: when `4 * sizeof(struct pfr_addr)` fits in an `int`, the envelope a root
run hands to its one get request has `pfrio_esize` equal to the size of one record,
`pfrio_size` equal to `SIZE` = 4, a buffer of exactly `pfrio_esize * pfrio_size` =
`msize` bytes, all of them zero, every other field zero, and as its table the `tbl`
into which the name was copied. -/
theorem C10_envelope_matches_buffer (p : Platform) (w : World) (h0 : w.uid = 0)
    (hfit : (SIZE : Int) * p.sizeof_pfr_addr ≤ 2147483647) :
    ioctlRequests (main p w).trace = [makeRequest p tableName] ∧
    (makeRequest p tableName).pfrio_esize = p.sizeof_pfr_addr ∧
    (makeRequest p tableName).pfrio_size = SIZE ∧
    msize p = (makeRequest p tableName).pfrio_esize * (makeRequest p tableName).pfrio_size ∧
    ((makeRequest p tableName).pfrio_buffer.length : Int)
      = (makeRequest p tableName).pfrio_esize * (makeRequest p tableName).pfrio_size ∧
    (∀ b ∈ (makeRequest p tableName).pfrio_buffer, b = 0) ∧
    Event.malloc (SIZE * p.sizeof_pfr_addr) ∈ (main p w).trace ∧
    (makeRequest p tableName).pfrio_size2 = 0 ∧
    (makeRequest p tableName).pfrio_nadd = 0 ∧
    (makeRequest p tableName).pfrio_ndel = 0 ∧
    (makeRequest p tableName).pfrio_nchange = 0 ∧
    (makeRequest p tableName).pfrio_flags = 0 ∧
    (makeRequest p tableName).pfrio_ticket = 0 ∧
    (makeRequest p tableName).pfrio_table = makeTable p tableName ∧
    (makeTable p tableName).pfrt_name
      = (strlcpy (List.replicate p.PF_TABLE_NAME_SIZE NUL) tableName p.PF_TABLE_NAME_SIZE).1 ∧
    (∀ c ∈ (makeTable p tableName).pfrt_anchor, c = NUL) ∧
    (makeTable p tableName).pfrt_flags = 0 ∧
    (makeTable p tableName).pfrt_fback = 0 := by
  have hSIZE : SIZE = 4 := rfl
  rw [hSIZE] at hfit
  have he : toInt32 p.sizeof_pfr_addr = p.sizeof_pfr_addr := by
    unfold toInt32
    push_cast at hfit
    omega
  have hms : msize p = (p.sizeof_pfr_addr : Int) * 4 := by
    unfold msize toInt32
    rw [hSIZE]
    push_cast at hfit ⊢
    omega
  have hsz : toSizeT (msize p) = SIZE * p.sizeof_pfr_addr := by
    rw [hms, hSIZE]
    unfold toSizeT
    push_cast at hfit
    omega
  have hmalloc : Event.malloc (SIZE * p.sizeof_pfr_addr) ∈ (main p w).trace := by
    rw [← hsz]
    unfold main
    by_cases hr : (answer tableName p w).ret = -1
    · rw [mainFor_refused tableName p w h0 hr]
      simp [preamble]
    · rw [mainFor_ok tableName p w h0 hr]
      simp [preamble]
  have hes : (makeRequest p tableName).pfrio_esize = toInt32 p.sizeof_pfr_addr := rfl
  have hcap : (makeRequest p tableName).pfrio_size = ((SIZE : Nat) : Int) := rfl
  have hbuf : (makeRequest p tableName).pfrio_buffer
      = List.replicate (toSizeT (msize p)) 0 := by
    simp only [makeRequest, zeroedBuffer]
  have hanchor : (makeTable p tableName).pfrt_anchor = List.replicate p.PATH_MAX NUL := rfl
  refine ⟨ioctlRequests_mainFor tableName p w h0, he, rfl, ?_, ?_, ?_, hmalloc,
    rfl, rfl, rfl, rfl, rfl, rfl, rfl, rfl, ?_, rfl, rfl⟩
  · rw [hes, hcap, he, hms, hSIZE]
    rfl
  · rw [hes, hcap, hbuf, List.length_replicate, hsz, he, hSIZE]
    push_cast
    omega
  · intro b hb
    rw [hbuf] at hb
    exact List.eq_of_mem_replicate hb
  · intro c hc
    rw [hanchor] at hc
    exact List.eq_of_mem_replicate hc

/-- Witness of C10 on OpenBSD, where a record has 52 bytes. -/
theorem C10_envelope_matches_buffer_witness :
    twoWorld.uid = 0 ∧
    (SIZE : Int) * openbsd.sizeof_pfr_addr ≤ 2147483647 ∧
    ioctlRequests (main openbsd twoWorld).trace = [makeRequest openbsd tableName] ∧
    (makeRequest openbsd tableName).pfrio_esize = 52 ∧
    (makeRequest openbsd tableName).pfrio_size = 4 ∧
    ((makeRequest openbsd tableName).pfrio_buffer.length : Int)
      = (makeRequest openbsd tableName).pfrio_esize
          * (makeRequest openbsd tableName).pfrio_size :=
  ⟨by decide, by decide,
   (C10_envelope_matches_buffer openbsd twoWorld (by decide) (by decide)).1,
   (C10_envelope_matches_buffer openbsd twoWorld (by decide) (by decide)).2.1,
   (C10_envelope_matches_buffer openbsd twoWorld (by decide) (by decide)).2.2.1,
   (C10_envelope_matches_buffer openbsd twoWorld (by decide) (by decide)).2.2.2.2.1⟩

end ReadPftable
